import Mathlib

/-
Shallow embedding of the elyx_platform routing / journey-simulation core.

Sources embedded here:
- src/agents/llm_router.py   (LLMRouter: _extract_json aftermath, extract_key_info,
                              orchestrate, extraction cache update)
- src/agents/base_agent.py   (BaseAgent.respond retry loop)
- src/simulation/journey_orchestrator.py
                             (delta computation, weekly events, adherence,
                              weekly report / micro-replan logic)
- src/data/models.py         (DiagnosticPanel, MicroReplan)

Python values flowing through the routing pipeline are modelled by `PyJson`
(JSON-shaped data, numbers as exact rationals).  Machine floats are modelled
as rationals; the places where decimal formatting rounds are noted at the
formatting helpers.  Fallible Python code (expressions that can raise) is
modelled with `Option`, `none` standing for a raised exception.
-/

/-- JSON-shaped Python value (result of json.loads / dict literals). -/
inductive PyJson where
  | null : PyJson
  | bool : Bool → PyJson
  | num : ℚ → PyJson
  | str : String → PyJson
  | arr : List PyJson → PyJson
  | obj : List (String × PyJson) → PyJson

/-- Python truthiness (`bool(v)`) for JSON-shaped values. -/
def pyTruthy : PyJson → Bool
  | .null => false
  | .bool b => b
  | .num q => !(q == 0)
  | .str s => !s.toList.isEmpty
  | .arr l => !l.isEmpty
  | .obj l => !l.isEmpty

/-- ASCII lowercasing of a char list (Python `str.lower()` on the ASCII
text this codebase handles). -/
def lowerList (cs : List Char) : List Char := cs.map Char.toLower

/-- Python whitespace for `str.strip()`. -/
def isPySpace (c : Char) : Bool :=
  c = ' ' || c = '\t' || c = '\n' || c = '\r' || c = Char.ofNat 11 || c = Char.ofNat 12

/-- Python `str.strip()` on a char list. -/
def pyStrip (cs : List Char) : List Char :=
  ((cs.dropWhile isPySpace).reverse.dropWhile isPySpace).reverse

/-- `dict.get(key)` on an object: first binding wins (dict keys are unique). -/
def pyGet (d : List (String × PyJson)) (k : String) : Option PyJson :=
  (d.find? (fun p => p.1 == k)).map (·.2)

/-- Value of a digit string (all chars assumed digits). -/
def digitsToNat (cs : List Char) : ℕ :=
  cs.foldl (fun n c => 10 * n + (c.toNat - 48)) 0

/-- Python `float(s)` on the decimal string forms arising in this codebase:
optional sign, digits with an optional single decimal point, at least one
digit.  (Exponent / inf / nan / underscore forms, which never arise here,
are not modelled.)  `none` models a raised `ValueError`. -/
def float_of_string (s : String) : Option ℚ :=
  let cs := pyStrip s.toList
  let unsigned : List Char → Option ℚ := fun t =>
    let ip := t.takeWhile (· ≠ '.')
    let rest := t.dropWhile (· ≠ '.')
    match rest with
    | [] =>
        if ip ≠ [] && ip.all Char.isDigit then some (digitsToNat ip) else none
    | _ :: fp =>
        if (ip ≠ [] || fp ≠ []) && ip.all Char.isDigit && fp.all Char.isDigit then
          some ((digitsToNat ip : ℚ) + (digitsToNat fp : ℚ) / (10 : ℚ) ^ fp.length)
        else none
  match cs with
  | '+' :: t => unsigned t
  | '-' :: t => (unsigned t).map Neg.neg
  | t => unsigned t

/-- Python `float(v)` on a JSON-shaped value; `none` models a raised
`ValueError`/`TypeError` (e.g. `float("high")`, `float([])`). -/
def pyFloat : PyJson → Option ℚ
  | .num q => some q
  | .bool b => some (if b then 1 else 0)
  | .str s => float_of_string s
  | .null => none
  | .arr _ => none
  | .obj _ => none

/-- `float(v or 0)`: a falsy value is replaced by 0 before conversion. -/
def pyFloatOrZero (v : PyJson) : Option ℚ :=
  if pyTruthy v then pyFloat v else some 0

/-- The result record built by `LLMRouter.extract_key_info`
(src/agents/llm_router.py lines 169-180).  `intent` is kept as a raw JSON
value because the code stores it without a type check. -/
structure ExtractionResult where
  summary : String
  intent : PyJson
  entities : List (String × PyJson)
  keywords : List PyJson
  confidence : ℚ
  is_health_issue : Bool
  health_issue : List (String × PyJson)
  is_improvement : Bool
  improvement : List (String × PyJson)
  recommended_agents : List PyJson

/-- The all-default extraction result (what an unparsable raw output, i.e.
`data = {}`, normalizes to). -/
def defaultExtraction : ExtractionResult :=
  { summary := ""
    intent := .str "other"
    entities := []
    keywords := []
    confidence := 0
    is_health_issue := false
    health_issue := []
    is_improvement := false
    improvement := []
    recommended_agents := [] }

/-- The extraction result produced for a raw output that sets both the
health-issue and improvement flags (used to exercise the mutual-exclusion
invariant on a concrete input). -/
def bothFlagsResult : ExtractionResult :=
  { summary := ""
    intent := .str "other"
    entities := []
    keywords := []
    confidence := 0
    is_health_issue := true
    health_issue := []
    is_improvement := false
    improvement := []
    recommended_agents := [] }

/-- The mutual-exclusivity fix-up applied to the built result (llm_router.py
lines 182-188): when both flags are set, is_health_issue wins and
is_improvement is forced to false. -/
def applyMutex (r : ExtractionResult) : ExtractionResult :=
  if r.is_health_issue && r.is_improvement then { r with is_improvement := false }
  else r

/-- `LLMRouter.extract_key_info` normalization (src/agents/llm_router.py
lines 153-196), starting from `data = self._extract_json(raw)`.
`_extract_json` always returns a value (it catches its own decode errors and
falls back to `{}`), so its outcome is the input here; a non-dict outcome is
replaced by `{}` (line 154-155).  `none` models the uncaught `ValueError` /
`TypeError` that `float(data.get("confidence", 0) or 0)` raises on a truthy
non-numeric value (line 162). -/
def buildExtraction (data : List (String × PyJson)) (confidence : ℚ) :
    ExtractionResult :=
  { -- summary = data.get("summary", "") if isinstance(..., str) else ""
    summary := match pyGet data "summary" with
      | some (.str s) => s
      | some _ => ""
      | none => ""
    -- intent = data.get("intent", "other")   (no type check)
    intent := (pyGet data "intent").getD (.str "other")
    entities := match pyGet data "entities" with
      | some (.obj l) => l
      | some _ => []
      | none => []
    keywords := match pyGet data "keywords" with
      | some (.arr l) => l
      | some _ => []
      | none => []
    confidence := confidence
    -- is_health_issue = bool(data.get("is_health_issue")) if key present else False
    is_health_issue := match pyGet data "is_health_issue" with
      | some v => pyTruthy v
      | none => false
    health_issue := match pyGet data "health_issue" with
      | some (.obj l) => l
      | some _ => []
      | none => []
    is_improvement := match pyGet data "is_improvement" with
      | some v => pyTruthy v
      | none => false
    improvement := match pyGet data "improvement" with
      | some (.obj l) => l
      | some _ => []
      | none => []
    recommended_agents := match pyGet data "recommended_agents" with
      | some (.arr l) => l
      | some _ => []
      | none => [] }

def extract_from_dict (data : List (String × PyJson)) : Option ExtractionResult :=
  -- confidence = float(data.get("confidence", 0) or 0) can raise; the other
  -- field normalizations (computed around it in the source) are pure and
  -- cannot raise, so hoisting them into `buildExtraction` preserves meaning.
  match pyFloatOrZero ((pyGet data "confidence").getD (.num 0)) with
  | none => none
  | some confidence =>
      -- Mutual exclusivity: prefer is_health_issue, force is_improvement off.
      some (applyMutex (buildExtraction data confidence))

/-- `LLMRouter.extract_key_info`: a non-dict decode outcome is replaced by
`{}` (llm_router.py lines 154-155), then the fields are normalized. -/
def extract_key_info (data0 : PyJson) : Option ExtractionResult :=
  extract_from_dict (match data0 with | .obj l => l | _ => [])

/-- The six registered agents (keys of `LLMRouter.agent_descriptions`). -/
inductive Agent where
  | Ruby | DrWarren | Advik | Carla | Rachel | Neel
deriving DecidableEq, Repr

/-- `name_map = {k.lower(): k for k in self.agent_descriptions.keys()}` followed
by `name_map.get(r.lower())`: case-insensitive canonicalization of an agent
name, `none` for unknown names. -/
def canonName (s : String) : Option Agent :=
  match String.mk (lowerList s.toList) with
  | "ruby" => some .Ruby
  | "dr. warren" => some .DrWarren
  | "advik" => some .Advik
  | "carla" => some .Carla
  | "rachel" => some .Rachel
  | "neel" => some .Neel
  | _ => none

/-- One step of the `recommended_agents` normalization loop (orchestrate
lines 481-485): keep a string that canonicalizes, drop duplicates. -/
def recStep (acc : List Agent) (j : PyJson) : List Agent :=
  match j with
  | .str s =>
      match canonName s with
      | some a => if a ∈ acc then acc else acc ++ [a]
      | none => acc
  | _ => acc

/-- Normalization of `recommended_agents` (orchestrate lines 478-485):
keep strings that canonicalize, drop duplicates, preserve first-seen order. -/
def normalizeRecs (raw : List PyJson) : List Agent :=
  raw.foldl recStep []

/-- `needle in hay` for char lists (Python substring test). -/
def hasSub : List Char → List Char → Bool
  | [], needle => needle.isEmpty
  | c :: t, needle => needle.isPrefixOf (c :: t) || hasSub t needle

/-- `any(h in msg.lower() for h in hints)`. -/
def anyHint (message : String) (hints : List String) : Bool :=
  hints.any (fun h => hasSub (lowerList message.toList) h.toList)

/-- Strong-override physio keywords (orchestrate line 497). -/
def physio_hints_local : List String :=
  ["pain", "injury", "back", "knee", "shoulder", "mobility", "rehab",
   "twist", "sprain", "swelling"]

/-- Promotion-stage physio keywords (orchestrate line 520). -/
def physio_hints : List String :=
  ["pain", "injury", "back", "knee", "shoulder", "mobility", "rehab"]

/-- Promotion-stage medical keywords (orchestrate line 521). -/
def medical_hints : List String :=
  ["fever", "bleeding", "chest", "diagnosis", "lab", "blood", "test",
   "result", "prescription"]

/-- Promotion-stage nutrition keywords (orchestrate line 522). -/
def nutrition_hints : List String :=
  ["cgm", "glucose", "meal", "food", "diet", "protein", "carb", "supplement"]

/-- Promotion-stage performance keywords (orchestrate line 523). -/
def performance_hints : List String :=
  ["whoop", "oura", "hrv", "sleep", "recovery", "workout", "exercise"]

/-- `intent_map.get(intent)` (orchestrate lines 510-517). -/
def intent_map (intent : String) : Option Agent :=
  match intent with
  | "physio" => some .Rachel
  | "medical" => some .DrWarren
  | "nutrition" => some .Carla
  | "performance" => some .Advik
  | "logistics" => some .Ruby
  | _ => none

/-- `(key_info.get("intent") or "").lower()`: a falsy intent yields "", a
truthy string is lowercased, and a truthy non-string raises AttributeError
(modelled as `none`). -/
def pyLowerOrEmpty (j : PyJson) : Option String :=
  if pyTruthy j then
    match j with
    | .str s => some (String.mk (lowerList s.toList))
    | _ => none
  else some ""

/-- Strong domain override (orchestrate lines 495-503): when the raw message
contains a physio hint, Rachel is forced to the front and Carla is dropped. -/
def mergedOverride (message : String) (selected0 : List Agent) : List Agent :=
  if anyHint message physio_hints_local then
    if Agent.Rachel ∈ selected0 then
      Agent.Rachel ::
        selected0.filter (fun a => a ≠ Agent.Rachel && a ≠ Agent.Carla)
    else
      Agent.Rachel :: selected0.filter (fun a => a ≠ Agent.Carla)
  else selected0

/-- Specialist derivation (orchestrate lines 508-532): keyword hints take
precedence over the intent-mapped specialist. -/
def specialistFor (message : String) (intent : String) : Option Agent :=
  if anyHint message physio_hints then some .Rachel
  else if anyHint message medical_hints then some .DrWarren
  else if anyHint message nutrition_hints then some .Carla
  else if anyHint message performance_hints then some .Advik
  else intent_map intent

/-- Promotion decision (orchestrate lines 536-546): promote when the extractor
gave no recommendations, confidence is below 0.85, or any keyword hint of the
four sets matched. -/
def overrideFlag (message : String) (recsEmpty : Bool) (confidence : ℚ) : Bool :=
  if recsEmpty then true
  else if confidence < (0.85 : ℚ) then true
  else anyHint message
    (physio_hints ++ medical_hints ++ nutrition_hints ++ performance_hints)

/-- Promotion (orchestrate lines 547-553): move/prepend the specialist to the
front when the override decision fired.  (The Python if/else on
`specialist in selected` builds the same list in both branches.) -/
def promoted : Option Agent → Bool → List Agent → List Agent
  | some sp, ov, selected1 =>
      if ov then sp :: selected1.filter (· ≠ sp) else selected1
  | none, _, selected1 => selected1

/-- Final mutual-exclusion pass, physio side (orchestrate lines 558-562):
the filtered list `s` is written out in both uses. -/
def exclusionRachel (specialist : Option Agent) (l : List Agent) : List Agent :=
  if specialist = some Agent.Rachel ∧ Agent.Carla ∈ l then
    if Agent.Rachel ∈ l.filter (· ≠ Agent.Carla) then l.filter (· ≠ Agent.Carla)
    else Agent.Rachel :: l.filter (· ≠ Agent.Carla)
  else l

/-- Final mutual-exclusion pass, nutrition side (orchestrate lines 563-567). -/
def exclusionCarla (specialist : Option Agent) (l : List Agent) : List Agent :=
  if specialist = some Agent.Carla ∧ Agent.Rachel ∈ l then
    if Agent.Carla ∈ l.filter (· ≠ Agent.Rachel) then l.filter (· ≠ Agent.Rachel)
    else Agent.Carla :: l.filter (· ≠ Agent.Rachel)
  else l

/-- Agent-selection pipeline of `LLMRouter.orchestrate`
(src/agents/llm_router.py lines 487-573), after intent has been lowercased.
Every specialist the promotion stage can produce is one of the six
registered agents, so the `specialist in self.agent_descriptions` guard
(line 535) is always satisfied. -/
def selectAgents (message : String) (recs : List Agent) (intent : String)
    (confidence : ℚ) (max_agents : ℕ) : List Agent :=
  let selected0 := if recs.isEmpty then [Agent.Ruby] else recs
  let merged := mergedOverride message selected0
  -- Trim to max_agents (line 506)
  let selected1 := merged.take max_agents
  let specialist := specialistFor message intent
  let selected2 := promoted specialist (overrideFlag message recs.isEmpty confidence) selected1
  exclusionCarla specialist (exclusionRachel specialist selected2)

/-- Per-agent execution strategy (orchestrate lines 584-608), abstracted from
the strategy dicts by their distinguishing fields. -/
inductive Strategy where
  /-- primary: wait_for_user False, reason "primary_agent" -/
  | respondImmediately : Strategy
  /-- Ruby, low-confidence branch: action "ask_clarifying_question" -/
  | askClarifyingQuestion : Strategy
  /-- Ruby, high-confidence branch: wait_for_user True, reason "ruby_waits_for_primary" -/
  | rubyWaitsForPrimary : Strategy
  /-- non-primary specialist: wait_for_event "primary_response_or_handoff",
  initiator `primary or "Ruby"` -/
  | waitForPrimaryOrHandoff : Agent → Strategy
deriving DecidableEq, Repr

/-- Strategy assignment for one selected agent (orchestrate lines 575-608). -/
def strategyFor (agent : Agent) (primary : Option Agent) (confidence : ℚ)
    (summary : String) (entitiesEmpty : Bool) : Strategy :=
  if some agent = primary then .respondImmediately
  else if agent = Agent.Ruby ∧ primary ≠ some Agent.Ruby then
    if confidence < (0.7 : ℚ) ∨ (pyStrip summary.toList = [] ∧ entitiesEmpty) then
      .askClarifyingQuestion
    else .rubyWaitsForPrimary
  else .waitForPrimaryOrHandoff (primary.getD Agent.Ruby)

/-- `LLMRouter.orchestrate` (src/agents/llm_router.py lines 456-619) as a
function of the message and the extraction result (`extract_key_info` is the
only source of non-determinism; its result is taken as an input here, which
also covers every context, since context only varies the extraction).
The per-agent prompt text built by `build_agent_messages` is prompt wording
and not modelled; each plan entry keeps its agent and strategy.
`none` models the AttributeError raised at line 509 when the stored intent
is a truthy non-string. -/
def orchestrate (message : String) (k : ExtractionResult) (max_agents : ℕ) :
    Option (List (Agent × Strategy)) :=
  match pyLowerOrEmpty k.intent with
  | none => none
  | some intent =>
    let recs := normalizeRecs k.recommended_agents
    let sel := selectAgents message recs intent k.confidence max_agents
    let primary := sel.head?
    some (sel.map (fun a =>
      (a, strategyFor a primary k.confidence k.summary k.entities.isEmpty)))

/-- Nonnegative rational rendered with exactly two decimal places.
Rounds half away from zero; Python's `"%.2f"` rounds the nearest binary
double half-to-even, which agrees on all non-tie values. -/
def fmtTwoDecimals (q : ℚ) : String :=
  let n : ℕ := (q * 100 + 1 / 2).floor.toNat
  toString (n / 100) ++ "." ++ (if n % 100 < 10 then "0" else "") ++ toString (n % 100)

/-- Python `f"{change:+.2f}"`: explicit sign, two decimals. -/
def fmtSigned2 (q : ℚ) : String :=
  if q < 0 then "-" ++ fmtTwoDecimals (-q) else "+" ++ fmtTwoDecimals q

/-- Python `f"{q:.0%}"` for a nonnegative rational: percent, no decimals.
Same tie-rounding caveat as `fmtTwoDecimals`. -/
def fmtPercent0 (q : ℚ) : String :=
  toString ((q * 100 + 1 / 2).floor.toNat) ++ "%"

/-- The delta entry for one biomarker: the signed two-decimal difference
`f"{change:+.2f}"`, or "N/A" when either value fails to parse as a float
(the `except ValueError` branch of `_calculate_delta`). -/
def deltaVal (v w : String) : String :=
  match float_of_string v, float_of_string w with
  | some c, some pv => fmtSigned2 (c - pv)
  | _, _ => "N/A"

/-- `JourneyOrchestrator._calculate_delta` (journey_orchestrator.py lines
102-113): for each current biomarker also present in the previous results,
its delta entry.  Biomarkers absent from the previous results are skipped.
Dict iteration order = insertion order, so association lists in order model
the dicts. -/
def calculate_delta (current_results previous_results : List (String × String)) :
    List (String × String) :=
  current_results.filterMap (fun p =>
    match previous_results.lookup p.1 with
    | none => none
    | some w => some (p.1, deltaVal p.2 w))

/-- DiagnosticPanel (src/data/models.py). -/
structure DiagnosticPanel where
  week : ℕ
  results : List (String × String)
  delta : List (String × String)

/-- MicroReplan (src/data/models.py). -/
structure MicroReplan where
  week : ℕ
  version : String
  reason : String
  changes : List String

/-- The portion of `self.current_state` that the embedded journey logic
reads and writes (both lists exist after the constructor's migration). -/
structure JourneyState where
  diagnostic_panels : List DiagnosticPanel
  micro_replans : List MicroReplan

/-- Delta side of `JourneyOrchestrator._handle_diagnostic_panel` (lines
64-71): the new panel's delta is computed against the last stored panel only,
or left empty when there is no previous panel.  (The scripted conversation
turns around it are prompt wording, not modelled.) -/
def handle_diagnostic_panel (week : ℕ) (results : List (String × String))
    (st : JourneyState) : DiagnosticPanel × JourneyState :=
  let delta : List (String × String) :=
    match st.diagnostic_panels.getLast? with
    | some prev => calculate_delta results prev.results
    | none => []
  let panel : DiagnosticPanel := { week, results, delta }
  (panel, { st with diagnostic_panels := st.diagnostic_panels ++ [panel] })

/-- `JourneyOrchestrator.generate_weekly_events` (lines 115-128). -/
def generate_weekly_events (week : ℕ) : List String :=
  if week = 1 then ["onboarding_complete", "initial_blood_test_high_sugar"]
  else if week = 12 ∨ week = 24 ∨ week = 34 then ["quarterly_diagnostic_test"]
  else if week = 10 then ["leg_injury_reported"]
  else if week % 4 = 0 then ["business_travel"]
  else if week % 2 = 0 then ["exercise_plan_update"]
  else []

/-- `JourneyOrchestrator._calculate_adherence` (lines 175-183); the
`random.uniform(0, 0.15)` draw is the explicit parameter `u`. -/
def calculate_adherence (events : List String) (u : ℚ) : ℚ :=
  let base : ℚ := 0.85
  let base := if events.contains "business_travel" then base - 0.2 else base
  let base := if events.contains "leg_injury_reported" then base - 0.3 else base
  let base := base - u
  max 0 base

/-- One conversation entry ({"sender": ..., "message": ...}). -/
structure ConvMsg where
  sender : String
  message : String

/-- ASCII apostrophe, spelled by code point. -/
def apos : String := String.singleton (Char.ofNat 39)

/-- The three fixed micro-replan change lines (lines 188-192). -/
def replanChanges : List String :=
  ["Shorter duration workouts (20-30 mins).",
   "Swap evening workout for a morning walk.",
   "Focus on recovery: 10 mins of stretching before bed."]

/-- The MicroReplan built by `_generate_micro_replan` (lines 185-195):
version "v{week}.{count+1}" where count is the number of replans already in
`current_state["micro_replans"]`. -/
def mkMicroReplan (week : ℕ) (adherence : ℚ) (priorCount : ℕ) : MicroReplan :=
  { week
    version := "v" ++ toString week ++ "." ++ toString (priorCount + 1)
    reason := "Detected low adherence (" ++ fmtPercent0 adherence ++ ") this week."
    changes := replanChanges }

/-- Neel's replan announcement message (lines 197-202). -/
def neelReplanMessage (version : String) : String :=
  "Hi Rohan, I noticed things were a bit hectic this week. No problem at all, that" ++
  apos ++ "s completely normal. Let" ++ apos ++
  "s adjust the plan to make it more manageable. Here" ++ apos ++
  "s a micro-replan for the coming week (" ++ version ++ "):\n\n- " ++
  replanChanges[0]! ++ "\n- " ++ replanChanges[1]! ++ "\n- " ++ replanChanges[2]! ++
  "\n\nLet" ++ apos ++ "s focus on consistency, not intensity. How does this sound?"

/-- `JourneyOrchestrator.extract_recommendations` (lines 205-210). -/
def extract_recommendations (conversations : List ConvMsg) : List String :=
  conversations.filterMap (fun c =>
    if c.sender ≠ "Rohan" && hasSub (lowerList c.message.toList) "recommend".toList then
      some (c.sender ++ ": " ++ String.mk (c.message.toList.take 100) ++ "...")
    else none)

/-- Weekly report record (the dict built at lines 158-173). -/
structure WeeklyReport where
  week : ℕ
  events : List String
  conversations_count : ℕ
  adherence_rate : ℚ
  blood_sugar_avg : ℤ
  a1c : ℚ
  weight : ℚ
  doctor_hours : ℕ
  coach_hours : ℕ
  recommendations : List String

/-- `JourneyOrchestrator._generate_micro_replan` (lines 185-203) as invoked
from `generate_weekly_report`: when adherence is below 0.6, record the replan
and append the announcement message; otherwise leave both unchanged. -/
def replanStep (week : ℕ) (adherence : ℚ) (conversations : List ConvMsg)
    (st : JourneyState) : List ConvMsg × JourneyState :=
  if adherence < (0.6 : ℚ) then
    (conversations ++
       [⟨"Neel", neelReplanMessage
          (mkMicroReplan week adherence st.micro_replans.length).version⟩],
     { st with micro_replans :=
        st.micro_replans ++ [mkMicroReplan week adherence st.micro_replans.length] })
  else (conversations, st)

/-- `JourneyOrchestrator.generate_weekly_report` (lines 151-173) together
with `_generate_micro_replan` (lines 185-203).  Random draws are explicit
parameters: `u` is the adherence noise, `dr`/`co` the agent-hours draws.
Returns the report, the (possibly extended) conversation list, and the
updated state. -/
def generate_weekly_report (week : ℕ) (events : List String)
    (conversations : List ConvMsg) (u : ℚ) (dr co : ℕ) (st : JourneyState) :
    WeeklyReport × List ConvMsg × JourneyState :=
  let adherence := calculate_adherence events u
  let stepped := replanStep week adherence conversations st
  let conversations := stepped.1
  let st := stepped.2
  let blood_sugar_improvement : ℕ := 2 * (week - 1)  -- max(0, (week-1)*2)
  let report : WeeklyReport :=
    { week
      events
      conversations_count := conversations.length
      adherence_rate := adherence
      blood_sugar_avg := max 120 (180 - (blood_sugar_improvement : ℤ))
      a1c := max (5.5 : ℚ) ((6.2 : ℚ) - (week : ℚ) * (0.02 : ℚ))
      weight := if week > 4 then (75 : ℚ) - (week : ℚ) * (0.1 : ℚ) else 75
      doctor_hours := dr
      coach_hours := co
      recommendations := extract_recommendations conversations }
  (report, conversations, st)

/-- One cache-update step of `LLMRouter.extract_key_info` (lines 128-130 and
192-195): a hit leaves the cache unchanged; on a miss, if the cache holds
more than 128 entries the first-inserted key is popped
(`pop(next(iter(...)))`), then the new key is inserted at the end.  The
cache is modelled by its key list in dict (insertion) order; the key is
`(message.strip(), json.dumps(context, sort_keys=True))`. -/
def extractCacheStep (cache : List (String × String)) (k : String × String) :
    List (String × String) :=
  if k ∈ cache then cache
  else
    let c := if cache.length > 128 then cache.tail else cache
    c ++ [k]

/-- Python `text.find(c)`: index of first occurrence, as an Option. -/
def pyFindChar (cs : List Char) (c : Char) : Option ℕ :=
  cs.findIdx? (· = c)

/-- Python `text.rfind(c)`: index of last occurrence, as an Option. -/
def pyRFindChar (cs : List Char) (c : Char) : Option ℕ :=
  (cs.reverse.findIdx? (· = c)).map (fun i => cs.length - 1 - i)

/-- `response_text[response_text.find(chr(123)) : response_text.rfind(chr(125)) + 1]`
(base_agent.py line 82) with Python slice semantics: a missing opening brace
gives start index -1 (i.e. len-1 after wraparound), a missing closing brace
gives stop index 0; out-of-order bounds give the empty string. -/
def jsonSpan (s : String) : String :=
  let cs := s.toList
  let a : ℕ := match pyFindChar cs (Char.ofNat 123) with
    | some i => i
    | none => cs.length - 1
  let b : ℕ := match pyRFindChar cs (Char.ofNat 125) with
    | some j => j + 1
    | none => 0
  String.mk ((cs.drop a).take (b - a))

/-- Fixed failure sentinel returned by `BaseAgent.respond` after exhausted
retries (base_agent.py line 96). -/
def failSentinel : String := "Failed to get a valid JSON response after multiple retries."

/-- The corrective system note appended after a failed attempt (line 91-92).
The interpolated exception text is abstracted away; the attempt number and
the raw response are kept. -/
def attemptErrNote (attempt : ℕ) (raw : String) : String :=
  "Attempt " ++ toString attempt ++
  " failed: Invalid JSON or schema validation error\nResponse: " ++ raw

/-- Retry loop of `BaseAgent.respond` (base_agent.py lines 78-98).
External collaborators are parameters: `call` is the completion client
(a function of the message list it receives), `loads` is `json.loads`
(`none` = JSONDecodeError), `valid` is the configured jsonschema check
(`none` = no schema; `some v` with `v j = false` = ValidationError), and
`dumps` is `json.dumps`.  `fuel` counts remaining attempts. -/
def respondLoop (call : List (String × String) → String)
    (loads : String → Option PyJson) (valid : Option (PyJson → Bool))
    (dumps : PyJson → String) (user : String) :
    List (String × String) → List (String × String) → ℕ → ℕ →
    String × List (String × String)
  | _, hist, _, 0 => (failSentinel, hist ++ [(user, failSentinel)])
  | msgs, hist, attempt, fuel + 1 =>
    let raw := call msgs
    match loads (jsonSpan raw) with
    | some j =>
        if (match valid with | some v => v j | none => true) then
          (dumps j, hist ++ [(user, dumps j)])
        else
          respondLoop call loads valid dumps user
            (msgs ++ [("system", attemptErrNote attempt raw)]) hist (attempt + 1) fuel
    | none =>
        respondLoop call loads valid dumps user
          (msgs ++ [("system", attemptErrNote attempt raw)]) hist (attempt + 1) fuel

/-- `BaseAgent.respond` (base_agent.py lines 69-98).  `ctx` is the serialized
context note inserted at position 1 when a context is given; `hist` is the
conversation history before the call.  Total by construction: the only
exceptions the loop body can raise (JSONDecodeError, ValidationError) are
caught, so a raised exception is not a possible outcome. -/
def respond (call : List (String × String) → String)
    (loads : String → Option PyJson) (valid : Option (PyJson → Bool))
    (dumps : PyJson → String) (system_prompt user : String)
    (ctx : Option String) (hist : List (String × String)) :
    String × List (String × String) :=
  let msgs := match ctx with
    | some c => [("system", system_prompt), ("system", "Context: " ++ c), ("user", user)]
    | none => [("system", system_prompt), ("user", user)]
  respondLoop call loads valid dumps user msgs hist 1 3

/-- One model-response attempt counts as failed when the brace-delimited span
does not parse, or parses but violates the configured schema. -/
def attemptFails (loads : String → Option PyJson) (valid : Option (PyJson → Bool))
    (raw : String) : Bool :=
  match loads (jsonSpan raw) with
  | none => true
  | some j => match valid with
    | some v => !(v j)
    | none => false

/-! ### Helper lemmas about the selection pipeline -/

theorem recStep_nodup (acc : List Agent) (j : PyJson) (h : acc.Nodup) :
    (recStep acc j).Nodup := by
  cases j with
  | str s =>
      rw [recStep]
      cases canonName s with
      | some a =>
          by_cases hmem : a ∈ acc
          · simpa [hmem] using h
          · simp only [hmem, if_false]
            rw [List.nodup_append]
            exact ⟨h, List.nodup_singleton a, by
              intro x hx hx'
              rw [List.mem_singleton] at hx'
              exact hmem (hx' ▸ hx)⟩
      | none => exact h
  | null => exact h
  | bool b => exact h
  | num q => exact h
  | arr l => exact h
  | obj l => exact h

theorem foldl_recStep_nodup (raw : List PyJson) :
    ∀ acc : List Agent, acc.Nodup → (raw.foldl recStep acc).Nodup := by
  induction raw with
  | nil => intro acc h; exact h
  | cons j t ih => intro acc h; exact ih _ (recStep_nodup acc j h)

theorem normalizeRecs_nodup (raw : List PyJson) : (normalizeRecs raw).Nodup :=
  foldl_recStep_nodup raw [] List.nodup_nil

theorem nodup_cons_filter_ne (x : Agent) (l : List Agent) (h : l.Nodup) :
    (x :: l.filter (· ≠ x)).Nodup := by
  rw [List.nodup_cons]
  refine ⟨fun hmem => ?_, h.filter _⟩
  rcases List.mem_filter.mp hmem with ⟨-, hx⟩
  simp at hx

theorem mergedOverride_nodup (message : String) (l : List Agent) (h : l.Nodup) :
    (mergedOverride message l).Nodup := by
  unfold mergedOverride
  split
  · split
    · rw [List.nodup_cons]
      refine ⟨fun hmem => ?_, h.filter _⟩
      rcases List.mem_filter.mp hmem with ⟨-, hx⟩
      simp at hx
    · next hnot =>
        rw [List.nodup_cons]
        exact ⟨fun hmem => hnot (List.mem_of_mem_filter hmem), h.filter _⟩
  · exact h

theorem mergedOverride_physio (message : String) (l : List Agent)
    (hhint : anyHint message physio_hints_local = true) :
    ∃ t, mergedOverride message l = Agent.Rachel :: t ∧
      Agent.Carla ∉ mergedOverride message l := by
  unfold mergedOverride
  rw [hhint]
  simp only [if_true]
  split
  · refine ⟨_, rfl, fun hmem => ?_⟩
    rcases List.mem_cons.mp hmem with h | h
    · cases h
    · rcases List.mem_filter.mp h with ⟨-, hx⟩
      simp at hx
  · refine ⟨_, rfl, fun hmem => ?_⟩
    rcases List.mem_cons.mp hmem with h | h
    · cases h
    · rcases List.mem_filter.mp h with ⟨-, hx⟩
      simp at hx

theorem mergedOverride_ne_nil (message : String) (l : List Agent) (h : l ≠ []) :
    mergedOverride message l ≠ [] := by
  unfold mergedOverride
  split
  · split <;> exact List.cons_ne_nil _ _
  · exact h

theorem take_ne_nil_of_pos (l : List Agent) (n : ℕ) (hl : l ≠ []) (hn : 1 ≤ n) :
    l.take n ≠ [] := by
  cases l with
  | nil => exact absurd rfl hl
  | cons a t =>
      cases n with
      | zero => omega
      | succ m => simp [List.take_succ_cons]

theorem promoted_nodup (sp : Option Agent) (ov : Bool) (l : List Agent)
    (h : l.Nodup) : (promoted sp ov l).Nodup := by
  cases sp with
  | some a =>
      rw [promoted]
      split
      · exact nodup_cons_filter_ne a l h
      · exact h
  | none => exact h

theorem promoted_length (sp : Option Agent) (ov : Bool) (l : List Agent) :
    (promoted sp ov l).length ≤ l.length + 1 := by
  cases sp with
  | some a =>
      rw [promoted]
      split
      · have := List.length_filter_le (fun x => decide (x ≠ a)) l
        simp only [List.length_cons]
        omega
      · omega
  | none => rw [promoted]; omega

theorem promoted_ne_nil (sp : Option Agent) (ov : Bool) (l : List Agent)
    (h : l ≠ []) : promoted sp ov l ≠ [] := by
  cases sp with
  | some a =>
      rw [promoted]
      split
      · exact List.cons_ne_nil _ _
      · exact h
  | none => exact h

theorem length_filter_ne_lt (a : Agent) (l : List Agent) (h : a ∈ l) :
    (l.filter (· ≠ a)).length < l.length := by
  induction l with
  | nil => cases h
  | cons b t ih =>
      rw [List.filter_cons]
      by_cases hba : b = a
      · subst hba
        have hle := List.length_filter_le (fun x => decide (x ≠ b)) t
        have hd : (decide (b ≠ b)) = false := by simp
        rw [hd]
        simp only [Bool.false_eq_true, if_false, List.length_cons]
        omega
      · rcases List.mem_cons.mp h with rfl | hmem
        · exact absurd rfl hba
        · have := ih hmem
          have hb : (decide (b ≠ a)) = true := by simp [hba]
          rw [hb]
          simp only [if_true, List.length_cons]
          omega

theorem exclusionRachel_nodup (sp : Option Agent) (l : List Agent)
    (h : l.Nodup) : (exclusionRachel sp l).Nodup := by
  unfold exclusionRachel
  split
  · split
    · exact h.filter _
    · next hnot => exact List.nodup_cons.mpr ⟨hnot, h.filter _⟩
  · exact h

theorem exclusionRachel_length (sp : Option Agent) (l : List Agent) :
    (exclusionRachel sp l).length ≤ l.length := by
  unfold exclusionRachel
  split
  · next hc =>
      have hlt := length_filter_ne_lt Agent.Carla l hc.2
      split
      · omega
      · simp only [List.length_cons]; omega
  · omega

theorem exclusionRachel_ne_nil (sp : Option Agent) (l : List Agent)
    (h : l ≠ []) : exclusionRachel sp l ≠ [] := by
  unfold exclusionRachel
  split
  · split
    · next hmem => exact List.ne_nil_of_mem hmem
    · exact List.cons_ne_nil _ _
  · exact h

theorem exclusionCarla_nodup (sp : Option Agent) (l : List Agent)
    (h : l.Nodup) : (exclusionCarla sp l).Nodup := by
  unfold exclusionCarla
  split
  · split
    · exact h.filter _
    · next hnot => exact List.nodup_cons.mpr ⟨hnot, h.filter _⟩
  · exact h

theorem exclusionCarla_length (sp : Option Agent) (l : List Agent) :
    (exclusionCarla sp l).length ≤ l.length := by
  unfold exclusionCarla
  split
  · next hc =>
      have hlt := length_filter_ne_lt Agent.Rachel l hc.2
      split
      · omega
      · simp only [List.length_cons]; omega
  · omega

theorem exclusionCarla_ne_nil (sp : Option Agent) (l : List Agent)
    (h : l ≠ []) : exclusionCarla sp l ≠ [] := by
  unfold exclusionCarla
  split
  · split
    · next hmem => exact List.ne_nil_of_mem hmem
    · exact List.cons_ne_nil _ _
  · exact h

theorem selectAgents_nodup (message : String) (recs : List Agent)
    (intent : String) (confidence : ℚ) (max_agents : ℕ) (hrecs : recs.Nodup) :
    (selectAgents message recs intent confidence max_agents).Nodup := by
  unfold selectAgents
  apply exclusionCarla_nodup
  apply exclusionRachel_nodup
  apply promoted_nodup
  refine List.Nodup.sublist (List.take_sublist _ _) ?_
  apply mergedOverride_nodup
  split
  · exact List.nodup_singleton _
  · exact hrecs

theorem selectAgents_length (message : String) (recs : List Agent)
    (intent : String) (confidence : ℚ) (max_agents : ℕ) :
    (selectAgents message recs intent confidence max_agents).length ≤ max_agents + 1 := by
  simp only [selectAgents]
  have h1 := exclusionCarla_length (specialistFor message intent)
    (exclusionRachel (specialistFor message intent)
      (promoted (specialistFor message intent)
        (overrideFlag message recs.isEmpty confidence)
        ((mergedOverride message (if recs.isEmpty then [Agent.Ruby] else recs)).take max_agents)))
  have h2 := exclusionRachel_length (specialistFor message intent)
    (promoted (specialistFor message intent)
      (overrideFlag message recs.isEmpty confidence)
      ((mergedOverride message (if recs.isEmpty then [Agent.Ruby] else recs)).take max_agents))
  have h3 := promoted_length (specialistFor message intent)
    (overrideFlag message recs.isEmpty confidence)
    ((mergedOverride message (if recs.isEmpty then [Agent.Ruby] else recs)).take max_agents)
  have h4 := List.length_take_le max_agents
    (mergedOverride message (if recs.isEmpty then [Agent.Ruby] else recs))
  omega

theorem selectAgents_ne_nil (message : String) (recs : List Agent)
    (intent : String) (confidence : ℚ) (max_agents : ℕ) (hmax : 1 ≤ max_agents) :
    selectAgents message recs intent confidence max_agents ≠ [] := by
  unfold selectAgents
  apply exclusionCarla_ne_nil
  apply exclusionRachel_ne_nil
  apply promoted_ne_nil
  apply take_ne_nil_of_pos _ _ _ hmax
  apply mergedOverride_ne_nil
  split
  · exact List.cons_ne_nil _ _
  · next hne => exact fun hnil => hne (by simp [hnil])

theorem selectAgents_physio (message : String) (recs : List Agent)
    (intent : String) (confidence : ℚ) (max_agents : ℕ)
    (hmax : 1 ≤ max_agents) (hhint : anyHint message physio_hints = true) :
    ∃ t, selectAgents message recs intent confidence max_agents = Agent.Rachel :: t ∧
      Agent.Carla ∉ selectAgents message recs intent confidence max_agents := by
  have hsubset : ∀ x ∈ physio_hints, x ∈ physio_hints_local := by decide
  have hlocal : anyHint message physio_hints_local = true := by
    unfold anyHint at hhint ⊢
    rw [List.any_eq_true] at hhint ⊢
    obtain ⟨x, hx, hpx⟩ := hhint
    exact ⟨x, hsubset x hx, hpx⟩
  have hspec : specialistFor message intent = some Agent.Rachel := by
    unfold specialistFor
    rw [hhint]
    rfl
  have hov : overrideFlag message recs.isEmpty confidence = true := by
    unfold overrideFlag
    split
    · rfl
    · split
      · rfl
      · unfold anyHint at hhint ⊢
        rw [List.any_eq_true] at hhint ⊢
        obtain ⟨x, hx, hpx⟩ := hhint
        exact ⟨x, List.mem_append.mpr (Or.inl (List.mem_append.mpr
          (Or.inl (List.mem_append.mpr (Or.inl hx))))), hpx⟩
  obtain ⟨t0, hm, hcm⟩ :=
    mergedOverride_physio message (if recs.isEmpty then [Agent.Ruby] else recs) hlocal
  obtain ⟨m, rfl⟩ : ∃ m, max_agents = m + 1 := ⟨max_agents - 1, by omega⟩
  have hc1 : Agent.Carla ∉ (Agent.Rachel :: t0.take m) := by
    intro hmem
    rcases List.mem_cons.mp hmem with h | h
    · cases h
    · exact hcm (hm ▸ List.mem_cons_of_mem _ (List.mem_of_mem_take h))
  have hc2 : Agent.Carla ∉
      Agent.Rachel :: (Agent.Rachel :: t0.take m).filter (· ≠ Agent.Rachel) := by
    intro hmem
    rcases List.mem_cons.mp hmem with h | h
    · cases h
    · exact hc1 (List.mem_of_mem_filter h)
  simp only [selectAgents]
  rw [hspec, hov, hm, List.take_succ_cons]
  simp only [promoted, if_true]
  rw [exclusionRachel, if_neg (fun hh => hc2 hh.2)]
  rw [exclusionCarla, if_neg (fun hh => by cases hh.1)]
  exact ⟨_, rfl, hc2⟩

theorem orchestrate_eq (message : String) (k : ExtractionResult) (max_agents : ℕ)
    (plan : List (Agent × Strategy)) (h : orchestrate message k max_agents = some plan) :
    ∃ intent, pyLowerOrEmpty k.intent = some intent ∧
      plan = (selectAgents message (normalizeRecs k.recommended_agents) intent
          k.confidence max_agents).map
        (fun a => (a, strategyFor a
          (selectAgents message (normalizeRecs k.recommended_agents) intent
            k.confidence max_agents).head? k.confidence k.summary k.entities.isEmpty)) := by
  unfold orchestrate at h
  split at h
  · cases h
  · next intent heq =>
      refine ⟨intent, heq, ?_⟩
      simpa using h.symm

/-! ### Claim theorems -/

/-- C1 (amended). For every message whose lowercased text contains one of the
seven promotion-stage physio hint keywords (pain, injury, back, knee,
shoulder, mobility, rehab), every extraction result (hence every context)
and every max_agents >= 1, a routing decision returned by
`LLMRouter.orchestrate` places the physio specialist Rachel first and does
not include the nutrition specialist Carla anywhere in the plan.  (The claim
as frozen, which covers all ten strong-override hint keywords including
twist, sprain and swelling, is refuted by `C1_counterexample`.) -/
theorem C1_physio_hint_rachel_primary_no_carla
    (message : String) (k : ExtractionResult) (max_agents : ℕ)
    (plan : List (Agent × Strategy)) (hmax : 1 ≤ max_agents)
    (hhint : anyHint message physio_hints = true)
    (hplan : orchestrate message k max_agents = some plan) :
    (∃ s rest, plan = (Agent.Rachel, s) :: rest) ∧
      ∀ p ∈ plan, p.1 ≠ Agent.Carla := by
  obtain ⟨intent, -, rfl⟩ := orchestrate_eq message k max_agents plan hplan
  obtain ⟨t, hsel, hnc⟩ :=
    selectAgents_physio message (normalizeRecs k.recommended_agents) intent
      k.confidence max_agents hmax hhint
  constructor
  · rw [hsel]
    exact ⟨_, _, rfl⟩
  · intro p hp
    rw [List.mem_map] at hp
    obtain ⟨a, ha, rfl⟩ := hp
    intro hcc
    exact hnc (hcc ▸ ha)

/-- Witness for C1: the message "knee pain" with the all-default extraction
and max_agents = 1 yields the single-entry plan [(Rachel, respond-now)]. -/
theorem C1_witness :
    (∃ s rest, [(Agent.Rachel, Strategy.respondImmediately)] = (Agent.Rachel, s) :: rest) ∧
      ∀ p ∈ [(Agent.Rachel, Strategy.respondImmediately)], p.1 ≠ Agent.Carla :=
  C1_physio_hint_rachel_primary_no_carla "knee pain" defaultExtraction 1
    [(Agent.Rachel, Strategy.respondImmediately)] (by decide) (by decide)
    (by with_unfolding_all rfl)

/-- Counterexample for C1 as frozen: "swelling" is a physio hint keyword of
the strong-override list (orchestrate line 497), yet when the extraction
reports intent "nutrition" with no recommended agents and confidence 0.9,
the returned plan has Carla primary and does not contain Rachel at all:
the promotion stage overrides the strong physio override. -/
theorem C1_counterexample :
    anyHint "swelling" physio_hints_local = true ∧
    orchestrate "swelling"
      { summary := "", intent := .str "nutrition", entities := [],
        keywords := [], confidence := 0.9, is_health_issue := false,
        health_issue := [], is_improvement := false, improvement := [],
        recommended_agents := [] } 2 =
      some [(Agent.Carla, Strategy.respondImmediately),
            (Agent.Ruby, Strategy.askClarifyingQuestion)] := by
  constructor
  · decide
  · with_unfolding_all rfl

/-- C2. In every plan returned by `LLMRouter.orchestrate`, the first
(primary) entry's strategy is respond-immediately; Ruby, when present and
not primary, gets ask-clarifying-question exactly when confidence < 0.7 or
the extraction has neither a (non-whitespace) summary nor any entities, and
otherwise waits; every other non-primary specialist waits for the primary
or a handoff, recording the primary as initiator. -/
theorem C2_strategy_assignment
    (message : String) (k : ExtractionResult) (max_agents : ℕ)
    (e : Agent × Strategy) (rest : List (Agent × Strategy))
    (hplan : orchestrate message k max_agents = some (e :: rest)) :
    e.2 = Strategy.respondImmediately ∧
      ∀ p ∈ rest,
        (p.1 = Agent.Ruby →
          ((k.confidence < (0.7 : ℚ) ∨
              (pyStrip k.summary.toList = [] ∧ k.entities.isEmpty = true)) ↔
            p.2 = Strategy.askClarifyingQuestion) ∧
          (p.2 ≠ Strategy.askClarifyingQuestion →
            p.2 = Strategy.rubyWaitsForPrimary)) ∧
        (p.1 ≠ Agent.Ruby → p.2 = Strategy.waitForPrimaryOrHandoff e.1) := by
  obtain ⟨intent, -, hmap⟩ := orchestrate_eq message k max_agents (e :: rest) hplan
  replace hmap := hmap.symm
  rw [List.map_eq_cons_iff] at hmap
  obtain ⟨a, sel', hsel, hfa, hrest⟩ := hmap
  have hnodup : (selectAgents message (normalizeRecs k.recommended_agents) intent
      k.confidence max_agents).Nodup :=
    selectAgents_nodup _ _ _ _ _ (normalizeRecs_nodup _)
  rw [hsel] at hnodup
  have hanotin : a ∉ sel' := (List.nodup_cons.mp hnodup).1
  have hhead : (selectAgents message (normalizeRecs k.recommended_agents) intent
      k.confidence max_agents).head? = some a := by rw [hsel]; rfl
  constructor
  · rw [← hfa]
    simp only [hhead]
    unfold strategyFor
    rw [if_pos rfl]
  · intro p hp
    rw [← hrest, List.mem_map] at hp
    obtain ⟨b, hb, rfl⟩ := hp
    have hba : b ≠ a := fun hh => hanotin (hh ▸ hb)
    simp only [hhead]
    constructor
    · intro hruby
      subst hruby
      have haR : a ≠ Agent.Ruby := fun hh => hba hh.symm
      unfold strategyFor
      rw [if_neg (fun hh => hba (Option.some.inj hh))]
      rw [if_pos ⟨rfl, fun hh => haR (Option.some.inj hh.symm).symm⟩]
      constructor
      · constructor
        · intro hcond
          rw [if_pos hcond]
        · intro heq
          by_cases hcond : k.confidence < (0.7 : ℚ) ∨
              (pyStrip k.summary.toList = [] ∧ k.entities.isEmpty = true)
          · exact hcond
          · rw [if_neg hcond] at heq
            cases heq
      · intro hne
        by_cases hcond : k.confidence < (0.7 : ℚ) ∨
            (pyStrip k.summary.toList = [] ∧ k.entities.isEmpty = true)
        · exact absurd (by rw [if_pos hcond]) hne
        · rw [if_neg hcond]
    · intro hnr
      unfold strategyFor
      rw [if_neg (fun hh => hba (Option.some.inj hh))]
      rw [if_neg (fun hh => hnr hh.1)]
      have he1 : e.1 = a := by rw [← hfa]
      rw [he1, Option.getD_some]

/-- Witness for C2: with the all-default extraction (no recommendations,
confidence 0, empty summary/entities) and the message "knee pain hurts",
max_agents = 2, the plan is [(Rachel, respond-now), (Ruby, clarify)]. -/
theorem C2_witness :
    ((Agent.Rachel, Strategy.respondImmediately) : Agent × Strategy).2 =
        Strategy.respondImmediately ∧
      ∀ p ∈ [(Agent.Ruby, Strategy.askClarifyingQuestion)],
        (p.1 = Agent.Ruby →
          (((defaultExtraction).confidence < (0.7 : ℚ) ∨
              (pyStrip (defaultExtraction).summary.toList = [] ∧
                (defaultExtraction).entities.isEmpty = true)) ↔
            p.2 = Strategy.askClarifyingQuestion) ∧
          (p.2 ≠ Strategy.askClarifyingQuestion →
            p.2 = Strategy.rubyWaitsForPrimary)) ∧
        (p.1 ≠ Agent.Ruby →
          p.2 = Strategy.waitForPrimaryOrHandoff
            ((Agent.Rachel, Strategy.respondImmediately) : Agent × Strategy).1) :=
  C2_strategy_assignment "knee pain" defaultExtraction 2
    (Agent.Rachel, Strategy.respondImmediately)
    [(Agent.Ruby, Strategy.askClarifyingQuestion)]
    (by with_unfolding_all rfl)

/-- C10. For every message, extraction result and max_agents >= 1, a plan
returned by `LLMRouter.orchestrate` is non-empty, mentions no agent twice,
and has at most max_agents + 1 entries. -/
theorem C10_plan_shape
    (message : String) (k : ExtractionResult) (max_agents : ℕ)
    (plan : List (Agent × Strategy)) (hmax : 1 ≤ max_agents)
    (hplan : orchestrate message k max_agents = some plan) :
    plan ≠ [] ∧ (plan.map Prod.fst).Nodup ∧ plan.length ≤ max_agents + 1 := by
  obtain ⟨intent, -, rfl⟩ := orchestrate_eq message k max_agents plan hplan
  refine ⟨?_, ?_, ?_⟩
  · intro hnil
    exact selectAgents_ne_nil message (normalizeRecs k.recommended_agents)
      intent k.confidence max_agents hmax (List.map_eq_nil_iff.mp hnil)
  · rw [List.map_map]
    have heq : (Prod.fst ∘ fun a =>
        (a, strategyFor a (selectAgents message (normalizeRecs k.recommended_agents)
          intent k.confidence max_agents).head? k.confidence k.summary
          k.entities.isEmpty)) = (fun a : Agent => a) := rfl
    rw [heq]
    simpa using selectAgents_nodup message (normalizeRecs k.recommended_agents)
      intent k.confidence max_agents (normalizeRecs_nodup _)
  · rw [List.length_map]
    exact selectAgents_length _ _ _ _ _

/-- Witness for C10: the plan from `C1_witness`'s inputs is non-empty,
duplicate-free and within the size bound. -/
theorem C10_witness :
    ([(Agent.Rachel, Strategy.respondImmediately)] :
        List (Agent × Strategy)) ≠ [] ∧
      (([(Agent.Rachel, Strategy.respondImmediately)] :
        List (Agent × Strategy)).map Prod.fst).Nodup ∧
      ([(Agent.Rachel, Strategy.respondImmediately)] :
        List (Agent × Strategy)).length ≤ 1 + 1 :=
  C10_plan_shape "knee pain" defaultExtraction 1
    [(Agent.Rachel, Strategy.respondImmediately)] (by decide)
    (by with_unfolding_all rfl)

/-- C3 (code bug). The spec says `extract_key_info` never raises — parse
failures degrade to the all-default result and wrongly-typed fields are
coerced — but the confidence conversion `float(data.get("confidence", 0) or 0)`
(llm_router.py line 162) is not guarded: on the raw model output
`{"confidence": "high"}` (valid JSON, so `_extract_json` hands it through)
`float("high")` raises ValueError out of `extract_key_info`.  In the
embedding a raised exception is `none`. -/
theorem C3_confidence_string_raises :
    extract_key_info (.obj [("confidence", .str "high")]) = none := by
  with_unfolding_all rfl

theorem applyMutex_not_both (r : ExtractionResult) :
    ¬((applyMutex r).is_health_issue = true ∧ (applyMutex r).is_improvement = true) := by
  unfold applyMutex
  rcases hh : r.is_health_issue <;> rcases hi : r.is_improvement <;>
    simp [hh, hi]

/-- C4. Whenever `extract_key_info` returns a result (does not raise), its
is_health_issue and is_improvement flags are never simultaneously true:
when the parsed data sets both, is_health_issue wins and is_improvement is
forced to false. -/
theorem C4_issue_improvement_exclusive (data : PyJson) (r : ExtractionResult)
    (h : extract_key_info data = some r) :
    ¬(r.is_health_issue = true ∧ r.is_improvement = true) := by
  unfold extract_key_info extract_from_dict at h
  cases data <;>
    split at h <;>
      first
        | exact Option.noConfusion h
        | (have hr := Option.some.inj h
           rw [← hr]
           exact applyMutex_not_both _)

/-- Witness for C4: raw output setting both flags yields a result with
is_health_issue true and is_improvement forced false. -/
theorem C4_witness :
    ¬(bothFlagsResult.is_health_issue = true ∧
      bothFlagsResult.is_improvement = true) :=
  C4_issue_improvement_exclusive
    (.obj [("is_health_issue", .bool true), ("is_improvement", .bool true)])
    bothFlagsResult (by with_unfolding_all rfl)

/-- C5. `generate_weekly_report` creates and records a MicroReplan exactly
when the computed adherence for the week is below 0.6, appending it to the
state's list, and the created replan's version is "v{week}.{ordinal}" with
ordinal = 1 + the number of micro-replans already recorded. -/
theorem C5_replan_iff_low_adherence (week : ℕ) (events : List String)
    (conversations : List ConvMsg) (u : ℚ) (dr co : ℕ) (st : JourneyState) :
    (calculate_adherence events u < (0.6 : ℚ) →
      (generate_weekly_report week events conversations u dr co st).2.2.micro_replans =
        st.micro_replans ++
          [mkMicroReplan week (calculate_adherence events u) st.micro_replans.length]) ∧
    (¬ calculate_adherence events u < (0.6 : ℚ) →
      (generate_weekly_report week events conversations u dr co st).2.2.micro_replans =
        st.micro_replans) ∧
    (mkMicroReplan week (calculate_adherence events u) st.micro_replans.length).version =
      "v" ++ toString week ++ "." ++ toString (st.micro_replans.length + 1) := by
  have hproj : ∀ w e c uu d co2 s, (generate_weekly_report w e c uu d co2 s).2.2 =
      (replanStep w (calculate_adherence e uu) c s).2 := fun _ _ _ _ _ _ _ => rfl
  refine ⟨?_, ?_, rfl⟩
  · intro h
    rw [hproj]
    unfold replanStep
    rw [if_pos h]
  · intro h
    rw [hproj]
    unfold replanStep
    rw [if_neg h]

/-- Witness for C5: week 1 with a reported leg injury and zero random noise
has adherence 0.55 < 0.6, so a replan "v1.1" is appended to the empty
state. -/
theorem C5_witness :
    (generate_weekly_report 1 ["leg_injury_reported"] [] 0 0 0
      ⟨[], []⟩).2.2.micro_replans =
      ([] : List MicroReplan) ++
        [mkMicroReplan 1 (calculate_adherence ["leg_injury_reported"] 0) 0] :=
  (C5_replan_iff_low_adherence 1 ["leg_injury_reported"] [] 0 0 0 ⟨[], []⟩).1
    (by with_unfolding_all decide)

theorem calculate_delta_lookup (cur prev : List (String × String)) (key : String) :
    (calculate_delta cur prev).lookup key =
      (cur.lookup key).bind (fun v => (prev.lookup key).map (fun w => deltaVal v w)) := by
  induction cur with
  | nil => simp [calculate_delta]
  | cons p t ih =>
      obtain ⟨k, v⟩ := p
      cases hpk : prev.lookup k with
      | none =>
          rw [calculate_delta, List.filterMap_cons] at *
          simp only [hpk]
          rw [List.lookup_cons]
          cases hkey : key == k with
          | true =>
              have hk : key = k := eq_of_beq hkey
              rw [ih, hk, hpk]
              cases t.lookup k <;> rfl
          | false => exact ih
      | some w =>
          rw [calculate_delta, List.filterMap_cons] at *
          simp only [hpk]
          rw [List.lookup_cons, List.lookup_cons]
          cases hkey : key == k with
          | true =>
              have hk : key = k := eq_of_beq hkey
              rw [hk, hpk]
              rfl
          | false => exact ih

/-- C6. For every pair of result maps and biomarker key: a biomarker absent
from the prior panel's results has no delta key; one present in both with
both values parseable gets current minus prior formatted with an explicit
sign; one present in both with either value unparseable gets "N/A"; and
`_handle_diagnostic_panel` computes the new panel's delta against the
immediately preceding (last stored) panel only, empty when there is none. -/
theorem C6_delta_against_previous_panel
    (cur prev : List (String × String)) (key : String) :
    (prev.lookup key = none → (calculate_delta cur prev).lookup key = none) ∧
    (∀ v w c p, cur.lookup key = some v → prev.lookup key = some w →
      float_of_string v = some c → float_of_string w = some p →
      (calculate_delta cur prev).lookup key = some (fmtSigned2 (c - p))) ∧
    (∀ v w, cur.lookup key = some v → prev.lookup key = some w →
      (float_of_string v = none ∨ float_of_string w = none) →
      (calculate_delta cur prev).lookup key = some "N/A") ∧
    (∀ week results st prevPanel, st.diagnostic_panels.getLast? = some prevPanel →
      (handle_diagnostic_panel week results st).1.delta =
        calculate_delta results prevPanel.results) ∧
    (∀ week results st, st.diagnostic_panels.getLast? = none →
      (handle_diagnostic_panel week results st).1.delta = []) := by
  refine ⟨?_, ?_, ?_, ?_, ?_⟩
  · intro h
    rw [calculate_delta_lookup, h]
    cases cur.lookup key <;> rfl
  · intro v w c p hv hw hc hp
    rw [calculate_delta_lookup, hv, hw]
    simp [deltaVal, hc, hp]
  · intro v w hv hw hnp
    rw [calculate_delta_lookup, hv, hw]
    rcases hnp with h | h <;>
      cases hfv : float_of_string v <;>
        cases hfw : float_of_string w <;>
          simp_all [deltaVal]
  · intro week results st prevPanel h
    simp [handle_diagnostic_panel, h]
  · intro week results st h
    simp [handle_diagnostic_panel, h]

/-- Witness for C6: with current A1C "5.84" against prior "6.02" the delta
entry is the signed difference; 5.84 = 146/25 and 6.02 = 301/50. -/
theorem C6_witness :
    (calculate_delta [("A1C", "5.84")] [("A1C", "6.02")]).lookup "A1C" =
      some (fmtSigned2 ((146 / 25 : ℚ) - 301 / 50)) :=
  (C6_delta_against_previous_panel [("A1C", "5.84")] [("A1C", "6.02")] "A1C").2.1
    "5.84" "6.02" (146 / 25) (301 / 50) rfl rfl
    (by with_unfolding_all decide) (by with_unfolding_all decide)

/-- C7. `generate_weekly_events` follows the fixed calendar rule with
first-match-wins semantics: week 1 yields the onboarding pair; weeks 12, 24
and 34 yield the quarterly diagnostic; week 10 yields the leg injury;
otherwise multiples of 4 yield business travel; otherwise even weeks yield
the exercise-plan update; all remaining weeks yield no event. -/
theorem C7_weekly_events_calendar (week : ℕ) :
    (week = 1 →
      generate_weekly_events week =
        ["onboarding_complete", "initial_blood_test_high_sugar"]) ∧
    ((week = 12 ∨ week = 24 ∨ week = 34) →
      generate_weekly_events week = ["quarterly_diagnostic_test"]) ∧
    (week = 10 → generate_weekly_events week = ["leg_injury_reported"]) ∧
    (¬(week = 12 ∨ week = 24 ∨ week = 34) → week % 4 = 0 →
      generate_weekly_events week = ["business_travel"]) ∧
    (¬(week = 12 ∨ week = 24 ∨ week = 34) → week ≠ 10 → week % 4 ≠ 0 →
      week % 2 = 0 →
      generate_weekly_events week = ["exercise_plan_update"]) ∧
    (week ≠ 1 → week % 2 ≠ 0 →
      generate_weekly_events week = []) := by
  unfold generate_weekly_events
  refine ⟨?_, ?_, ?_, ?_, ?_, ?_⟩
  · intro h
    subst h
    rfl
  · rintro (rfl | rfl | rfl) <;> rfl
  · intro h
    subst h
    rfl
  · intro h2 h4
    have ha : week ≠ 1 := by omega
    have h10 : week ≠ 10 := by omega
    rw [if_neg ha, if_neg h2, if_neg h10, if_pos h4]
  · intro hb h10 h4 h2
    have ha : week ≠ 1 := by omega
    rw [if_neg ha, if_neg hb, if_neg h10, if_neg h4, if_pos h2]
  · intro h1 h2
    have hb : ¬(week = 12 ∨ week = 24 ∨ week = 34) := by
      rintro (rfl | rfl | rfl) <;> omega
    have h10 : week ≠ 10 := by omega
    have h4 : week % 4 ≠ 0 := by omega
    rw [if_neg h1, if_neg hb, if_neg h10, if_neg h4, if_neg h2]

/-- Witness for C7: week 8 is neither week 1, 10, nor a diagnostic week, and
is divisible by 4, so it yields the business-travel event. -/
theorem C7_witness : generate_weekly_events 8 = ["business_travel"] :=
  (C7_weekly_events_calendar 8).2.2.2.1 (by decide) (by decide)

theorem extractCacheStep_le (cache : List (String × String)) (k : String × String)
    (h : cache.length ≤ 129) : (extractCacheStep cache k).length ≤ 129 := by
  unfold extractCacheStep
  split
  · exact h
  · split
    · next hgt =>
        rw [List.length_append, List.length_tail]
        simp only [List.length_singleton]
        omega
    · next hle =>
        rw [List.length_append]
        simp only [List.length_singleton]
        omega

/-- C8 (amended). After every sequence of `extract_key_info` calls starting
from the empty cache, the extraction memoization cache holds at most 129
entries: the `> 128` eviction check runs before the insertion, so the bound
reached is 129, not the claimed 128 (refuted by `C8_counterexample`). -/
theorem C8_cache_bound (ks : List (String × String)) :
    (ks.foldl extractCacheStep []).length ≤ 129 := by
  suffices h : ∀ cache : List (String × String), cache.length ≤ 129 →
      (ks.foldl extractCacheStep cache).length ≤ 129 by
    exact h [] (by simp)
  induction ks with
  | nil => intro c h; simpa using h
  | cons k t ih =>
      intro c h
      exact ih _ (extractCacheStep_le c k h)

set_option maxRecDepth 8000 in
/-- Counterexample for C8 as frozen: 129 calls with pairwise distinct cache
keys, starting from the empty cache, leave 129 entries — more than the
claimed 128-entry bound (the eviction guard fires only on the next call). -/
theorem C8_counterexample :
    128 < (((List.range 129).map (fun i => (toString i, ""))).foldl
      extractCacheStep []).length := by
  with_unfolding_all decide

theorem respondLoop_all_fail (call : List (String × String) → String)
    (loads : String → Option PyJson) (valid : Option (PyJson → Bool))
    (dumps : PyJson → String) (user : String)
    (h : ∀ msgs, attemptFails loads valid (call msgs) = true) :
    ∀ (fuel : ℕ) (msgs hist : List (String × String)) (attempt : ℕ),
      respondLoop call loads valid dumps user msgs hist attempt fuel =
        (failSentinel, hist ++ [(user, failSentinel)]) := by
  intro fuel
  induction fuel with
  | zero => intro msgs hist attempt; rfl
  | succ n ih =>
      intro msgs hist attempt
      have hf := h msgs
      unfold attemptFails at hf
      rw [respondLoop]
      cases hl : loads (jsonSpan (call msgs)) with
      | none => exact ih _ _ _
      | some j =>
          rw [hl] at hf
          cases valid with
          | none => simp at hf
          | some v =>
              have hv : v j = false := by simpa using hf
              dsimp only
              rw [if_neg (by simp [hv])]
              exact ih _ _ _

/-- C9. When every model completion produces malformed output — the
brace-delimited span fails to parse as JSON, or parses but violates the
configured schema — `BaseAgent.respond` (total by construction: both
exception kinds are caught) returns the fixed failure sentinel after its 3
attempts and appends the failure record to the conversation history. -/
theorem C9_respond_sentinel (call : List (String × String) → String)
    (loads : String → Option PyJson) (valid : Option (PyJson → Bool))
    (dumps : PyJson → String) (system_prompt user : String)
    (ctx : Option String) (hist : List (String × String))
    (h : ∀ msgs, attemptFails loads valid (call msgs) = true) :
    respond call loads valid dumps system_prompt user ctx hist =
      (failSentinel, hist ++ [(user, failSentinel)]) := by
  unfold respond
  cases ctx <;> exact respondLoop_all_fail call loads valid dumps user h 3 _ hist 1

/-- Witness for C9: a completion that always answers plain text (no JSON
object at all) drives respond to the sentinel with the failure recorded. -/
theorem C9_witness :
    respond (fun _ => "cannot answer that") (fun _ => none) none
        (fun _ => "") "sys" "question" none [] =
      (failSentinel, [("question", failSentinel)]) :=
  C9_respond_sentinel (fun _ => "cannot answer that") (fun _ => none)
    none (fun _ => "") "sys" "question" none [] (fun _ => rfl)
